import Mathlib

/-!
Verification of the binomial vanilla pricing engine
(`src/project3/binomialengine.hpp`, class `BinomialVanillaEngine_2`).

Real-valued quantities are embedded as rationals so every definition is
executable.  Dates are embedded as year fractions from the reference
(valuation) date, which sits at time 0; the day-count year fraction from the
reference date to a date is then the date itself.

The engine source under `src/` is the authority for the constructor check,
the spot/payoff preconditions, curve flattening, the three-node consistency
check, and the value/delta/gamma/theta formulas.  The tree, the lattice, the
discretized option rollback and `blackScholesTheta` live outside `src/`
(QuantLib collaborators and the repository's modified tree classes), so those
parts are modelled from the spec; each such definition says so in its doc
comment.
-/

set_option autoImplicit false

namespace BinomialEngine2

/-- Option type of a plain-vanilla payoff (QuantLib `Option::Type`). -/
inductive OptionType where
  | call
  | put
deriving DecidableEq

/-- The payoff argument handed to the engine: either a single-strike
plain-vanilla payoff (QuantLib `PlainVanillaPayoff`, the only kind the
engine's `dynamic_pointer_cast` accepts) or some other payoff object,
carrying only its evaluation function. -/
inductive PayoffArg where
  | plainVanilla (otype : OptionType) (strike : ℚ)
  | nonPlain (eval : ℚ → ℚ)

/-- Modelled from the spec: evaluation of a single-strike plain-vanilla
payoff (`PlainVanillaPayoff::operator()`, outside `src/`): a call pays
`max (s - strike) 0`, a put pays `max (strike - s) 0`. -/
def plainVanillaEval (otype : OptionType) (strike s : ℚ) : ℚ :=
  match otype with
  | .call => max (s - strike) 0
  | .put => max (strike - s) 0

/-- The exercise argument: its last date (as a year fraction from the
reference date) and whether exercise is permitted at intermediate steps. -/
structure ExerciseData where
  lastDate : ℚ
  american : Bool

/-- The stochastic-process descriptor consumed by the engine: spot price,
continuously-compounded zero rates of the risk-free and dividend curves as a
function of the maturity date, and the Black volatility surface as a function
of (maturity date, strike). -/
structure ProcessData where
  s0 : ℚ
  riskFreeZero : ℚ → ℚ
  dividendZero : ℚ → ℚ
  blackVol : ℚ → ℚ → ℚ

/-- The engine's pricing arguments (`arguments_`): payoff and exercise. -/
structure Arguments where
  payoff : PayoffArg
  exercise : ExerciseData

/-- The engine state after construction: the process and the step count
(`process_`, `timeSteps_`). -/
structure BinomialVanillaEngine_2 where
  process : ProcessData
  timeSteps : ℕ

/-- The failure modes of engine construction and of a pricing call, one per
`QL_REQUIRE` / `QL_ENSURE` in `binomialengine.hpp`. -/
inductive PricingError where
  /-- Constructor: at least 2 time steps required. -/
  | insufficientTimeSteps
  /-- Calculate: negative or null underlying given. -/
  | negativeOrNullUnderlying
  /-- Calculate: non-plain payoff given. -/
  | nonPlainPayoff
  /-- Calculate: expect 3 nodes in grid at 0 step. -/
  | expect3NodesAtTimeZero
deriving DecidableEq

/-- The engine constructor (`BinomialVanillaEngine_2::BinomialVanillaEngine_2`):
requires `timeSteps >= 2`, otherwise fails with the insufficient-resolution
error before anything else happens; no lattice is constructed here (that only
happens inside `calculate`). -/
def mkBinomialVanillaEngine_2 (process : ProcessData) (timeSteps : ℕ) :
    Except PricingError BinomialVanillaEngine_2 :=
  if 2 ≤ timeSteps then .ok { process := process, timeSteps := timeSteps }
  else .error .insufficientTimeSteps

/-- The constant-coefficient process obtained by flattening the term
structures (`binomialengine.hpp` lines 84-104): the rates are the zero rates
sampled at the exercise's last date, and the volatility is the Black
volatility of the surface sampled at the exercise's last date with strike
argument equal to the current spot price. -/
structure FlatProcess where
  s0 : ℚ
  r : ℚ
  q : ℚ
  v : ℚ

/-- Curve flattening as performed at the top of `calculate`:
`v = blackVol(lastDate, s0)`, `r = riskFreeZero(lastDate)`,
`q = dividendZero(lastDate)`. -/
def flatProcess (proc : ProcessData) (ex : ExerciseData) : FlatProcess :=
  { s0 := proc.s0
    r := proc.riskFreeZero ex.lastDate
    q := proc.dividendZero ex.lastDate
    v := proc.blackVol ex.lastDate proc.s0 }

/-- Modelled from the spec: the per-step lattice parameters produced by the
pluggable tree builder together with the lattice discounting
(`T` and `BlackScholesLattice<T>`, outside `src/`): up factor, down factor,
risk-neutral up-probability, and the one-step discount factor
(time-homogeneous variant). -/
structure LatticeParams where
  u : ℚ
  d : ℚ
  p : ℚ
  disc : ℚ

/-- Modelled from the spec: the pluggable tree-parameterization strategy,
given the flattened process, the maturity, the step count and the strike
(the constructor arguments of `T` in `calculate`). -/
def TreeStrategy : Type :=
  FlatProcess → ℚ → ℕ → ℚ → LatticeParams

/-- Modelled from the spec: underlying price at grid step `k`, node `j`
(`lattice->underlying(k, j)`).  The grid is built with extra leading steps so
that grid step 0 carries 3 nodes; the root is placed so that the middle node
at step 0 has price exactly `s0`, keeping the lattice symmetric about the
valuation point as the spec requires:
`underlying k j = s0 * u^j * d^(k+2-j) / (u*d)`. -/
def underlying (s0 u d : ℚ) (k j : ℕ) : ℚ :=
  s0 * u ^ j * d ^ (k + 2 - j) / (u * d)

/-- Modelled from the spec: number of surviving node values at grid step `k`
(`k + 3`, since the grid carries 3 nodes, not 1, at step 0). -/
def nodeCount (k : ℕ) : ℕ :=
  k + 3

/-- Modelled from the spec: terminal boundary condition of
`DiscretizedVanillaOption.initialize` — one payoff evaluation per node at the
final grid step `N`. -/
def terminalValues (pay : ℚ → ℚ) (s0 u d : ℚ) (N : ℕ) : List ℚ :=
  (List.range (nodeCount N)).map fun j => pay (underlying s0 u d N j)

/-- Modelled from the spec: one discrete backward step of the rollback.
From the values at step `k` it produces, for each node `j` of step `k - 1`,
`disc * (p * value[j+1] + (1-p) * value[j])`; the output list is one entry
shorter than the input. -/
def stepBack (disc p : ℚ) : List ℚ → List ℚ
  | a :: b :: rest => disc * (p * b + (1 - p) * a) :: stepBack disc p (b :: rest)
  | _ => []

/-- Modelled from the spec: the exercise-boundary adjustment applied at step
`k` when the option permits early exercise — each node value is replaced by
`max value (pay (underlying k j))`, with `j` the running node index. -/
def exerciseAdjust (pay : ℚ → ℚ) (s0 u d : ℚ) (k : ℕ) : ℕ → List ℚ → List ℚ
  | _, [] => []
  | j, a :: rest =>
      max a (pay (underlying s0 u d k j)) :: exerciseAdjust pay s0 u d k (j + 1) rest

/-- Modelled from the spec: the rollback loop from step `k` down to step 0,
applying one backward step and, for an early-exercisable option, the
exercise adjustment at each intermediate step. -/
def rollbackAux (disc p : ℚ) (american : Bool) (pay : ℚ → ℚ) (s0 u d : ℚ) :
    ℕ → List ℚ → List ℚ
  | 0, vals => vals
  | k + 1, vals =>
      let stepped := stepBack disc p vals
      let adjusted := if american then exerciseAdjust pay s0 u d k 0 stepped else stepped
      rollbackAux disc p american pay s0 u d k adjusted

/-- Modelled from the spec: the node-value vector left by
`option.rollback(0.0)` — initialize at maturity (grid step `N`) and roll the
values back to grid step 0. -/
def timeZeroValues (lp : LatticeParams) (american : Bool) (pay : ℚ → ℚ)
    (s0 : ℚ) (N : ℕ) : List ℚ :=
  rollbackAux lp.disc lp.p american pay s0 lp.u lp.d N
    (terminalValues pay s0 lp.u lp.d N)

/-- Modelled from the spec: `blackScholesTheta` (QuantLib
`ql/pricingengines/greeks.hpp`, outside `src/`): the Black-Scholes PDE
time-decay identity evaluated at the valuation point,
`theta = r*value - (r - q)*s*delta - v^2*s^2*gamma/2`,
with `s` the spot and `r`, `q`, `v` sampled from the original process at the
valuation date (time 0). -/
def blackScholesTheta (proc : ProcessData) (value delta gamma : ℚ) : ℚ :=
  proc.riskFreeZero 0 * value
    - (proc.riskFreeZero 0 - proc.dividendZero 0) * proc.s0 * delta
    - proc.blackVol 0 proc.s0 * proc.blackVol 0 proc.s0
        * proc.s0 * proc.s0 * gamma / 2

/-- The result fields of the pricing call (`results_`), each unset until the
call writes it; a call that fails leaves every field unset. -/
structure Results where
  value? : Option ℚ
  delta? : Option ℚ
  gamma? : Option ℚ
  theta? : Option ℚ
deriving DecidableEq

/-- The state of `results_` before `calculate` has stored anything. -/
def Results.empty : Results :=
  { value? := none, delta? := none, gamma? := none, theta? := none }

/-- The lattice parameters the pricing call obtains from the tree builder:
the strategy applied to the flattened process, the maturity (year fraction
from the reference date to the exercise's last date), the engine's step
count, and the payoff's strike (`new T(bs, maturity, timeSteps_, strike)`
composed with `BlackScholesLattice`). -/
def latticeParamsOf (strat : TreeStrategy) (eng : BinomialVanillaEngine_2)
    (args : Arguments) (strike : ℚ) : LatticeParams :=
  strat (flatProcess eng.process args.exercise) args.exercise.lastDate
    eng.timeSteps strike

/-- The node-value vector `va` read off after `option.rollback(0.0)` in
`calculate`, for a plain-vanilla payoff of the given type and strike. -/
def timeZeroVector (strat : TreeStrategy) (eng : BinomialVanillaEngine_2)
    (args : Arguments) (otype : OptionType) (strike : ℚ) : List ℚ :=
  timeZeroValues (latticeParamsOf strat eng args strike) args.exercise.american
    (plainVanillaEval otype strike) eng.process.s0 eng.timeSteps

/-- The pricing call `BinomialVanillaEngine_2::calculate`, translated from
`binomialengine.hpp`.  It returns the state of `results_` after the call
together with the error, if any, that aborted the call:

* requires a strictly positive spot (`QL_REQUIRE(s0 > 0.0, ...)`);
* requires a plain-vanilla payoff (`QL_REQUIRE(payoff, "non-plain ...")`),
  checked before any tree is built;
* flattens the curves, builds the tree and lattice, initializes the
  discretized option at maturity and rolls it back to time 0;
* checks `va.size() == 3` (`QL_ENSURE`), reads `p0d, p0, p0u = va[0..2]` and
  the outer underlying prices `s0d = underlying(0,0)`, `s0u = underlying(0,2)`;
* stores `value = p0`, `delta = (p0u - p0d)/(s0u - s0d)`,
  `gamma = (delta0u - delta0d)/((s0u - s0d)/2)` with
  `delta0u = (p0u - p0)/(s0u - s0)` and `delta0d = (p0d - p0)/(s0d - s0)`
  (`s0` here being the spot, as in the source), and
  `theta = blackScholesTheta(process, value, delta, gamma)`.

Results are written only at the very end, so a failed call leaves
`Results.empty`. -/
def calculate (strat : TreeStrategy) (eng : BinomialVanillaEngine_2)
    (args : Arguments) : Results × Option PricingError :=
  if 0 < eng.process.s0 then
    match args.payoff with
    | .nonPlain _ => (Results.empty, some .nonPlainPayoff)
    | .plainVanilla otype strike =>
        let lp := latticeParamsOf strat eng args strike
        let va := timeZeroVector strat eng args otype strike
        if va.length = 3 then
          let p0u := va.getD 2 0
          let p0 := va.getD 1 0
          let p0d := va.getD 0 0
          let s0u := underlying eng.process.s0 lp.u lp.d 0 2
          let s0d := underlying eng.process.s0 lp.u lp.d 0 0
          let delta := (p0u - p0d) / (s0u - s0d)
          let delta0u := (p0u - p0) / (s0u - eng.process.s0)
          let delta0d := (p0d - p0) / (s0d - eng.process.s0)
          let gamma := (delta0u - delta0d) / ((s0u - s0d) / 2)
          ({ value? := some p0, delta? := some delta, gamma? := some gamma,
             theta? := some (blackScholesTheta eng.process p0 delta gamma) },
           none)
        else (Results.empty, some .expect3NodesAtTimeZero)
  else (Results.empty, some .negativeOrNullUnderlying)

/-- `p0u = va[2]`: the surviving time-0 value at the up (highest-price) node. -/
def p0uOf (strat : TreeStrategy) (eng : BinomialVanillaEngine_2)
    (args : Arguments) (otype : OptionType) (strike : ℚ) : ℚ :=
  (timeZeroVector strat eng args otype strike).getD 2 0

/-- `p0 = va[1]`: the surviving time-0 value at the mid node. -/
def p0Of (strat : TreeStrategy) (eng : BinomialVanillaEngine_2)
    (args : Arguments) (otype : OptionType) (strike : ℚ) : ℚ :=
  (timeZeroVector strat eng args otype strike).getD 1 0

/-- `p0d = va[0]`: the surviving time-0 value at the down (lowest-price) node. -/
def p0dOf (strat : TreeStrategy) (eng : BinomialVanillaEngine_2)
    (args : Arguments) (otype : OptionType) (strike : ℚ) : ℚ :=
  (timeZeroVector strat eng args otype strike).getD 0 0

/-- `s0u = lattice->underlying(0, 2)`: the underlying price at the time-0 up
node. -/
def s0uOf (strat : TreeStrategy) (eng : BinomialVanillaEngine_2)
    (args : Arguments) (strike : ℚ) : ℚ :=
  underlying eng.process.s0 (latticeParamsOf strat eng args strike).u
    (latticeParamsOf strat eng args strike).d 0 2

/-- The underlying price at the time-0 mid node, `lattice->underlying(0, 1)`
(the source does not read it from the lattice; it uses the spot directly). -/
def s0midOf (strat : TreeStrategy) (eng : BinomialVanillaEngine_2)
    (args : Arguments) (strike : ℚ) : ℚ :=
  underlying eng.process.s0 (latticeParamsOf strat eng args strike).u
    (latticeParamsOf strat eng args strike).d 0 1

/-- `s0d = lattice->underlying(0, 0)`: the underlying price at the time-0
down node. -/
def s0dOf (strat : TreeStrategy) (eng : BinomialVanillaEngine_2)
    (args : Arguments) (strike : ℚ) : ℚ :=
  underlying eng.process.s0 (latticeParamsOf strat eng args strike).u
    (latticeParamsOf strat eng args strike).d 0 0

/-- A concrete market process for concrete evaluations: the spec's reference
scenario (spot 100, rate 5%, no dividends, volatility 20%). -/
def sampleProcess : ProcessData :=
  { s0 := 100
    riskFreeZero := fun _ => 1 / 20
    dividendZero := fun _ => 0
    blackVol := fun _ _ => 1 / 5 }

/-- A process whose sampled spot price is exactly zero. -/
def zeroSpotProcess : ProcessData :=
  { s0 := 0
    riskFreeZero := fun _ => 1 / 20
    dividendZero := fun _ => 0
    blackVol := fun _ _ => 1 / 5 }

/-- A concrete time-homogeneous tree parameterization for concrete
evaluations (up 2, down 1/2, probability 1/2, one-step discount 9/10). -/
def sampleStrategy : TreeStrategy :=
  fun _ _ _ _ => { u := 2, d := 1 / 2, p := 1 / 2, disc := 9 / 10 }

/-- Concrete arguments: an at-the-money European call expiring in one year. -/
def sampleArguments : Arguments :=
  { payoff := .plainVanilla .call 100
    exercise := { lastDate := 1, american := false } }

/-- Concrete arguments with a payoff that is not plain vanilla. -/
def nonPlainArguments : Arguments :=
  { payoff := .nonPlain (fun s => s)
    exercise := { lastDate := 1, american := false } }

/-- The engine built from the sample process with the minimum step count 2. -/
def sampleEngine : BinomialVanillaEngine_2 :=
  { process := sampleProcess, timeSteps := 2 }

/-- The engine built from the zero-spot process. -/
def zeroSpotEngine : BinomialVanillaEngine_2 :=
  { process := zeroSpotProcess, timeSteps := 2 }

theorem length_stepBack (disc p : ℚ) (vals : List ℚ) :
    (stepBack disc p vals).length = vals.length - 1 := by
  induction vals with
  | nil => rfl
  | cons a tail ih =>
      cases tail with
      | nil => rfl
      | cons b rest =>
          simpa [stepBack] using ih

theorem length_exerciseAdjust (pay : ℚ → ℚ) (s0 u d : ℚ) (k : ℕ) :
    ∀ (j : ℕ) (vals : List ℚ),
      (exerciseAdjust pay s0 u d k j vals).length = vals.length := by
  intro j vals
  induction vals generalizing j with
  | nil => rfl
  | cons a rest ih => simp [exerciseAdjust, ih]

theorem length_rollbackAux (disc p : ℚ) (american : Bool) (pay : ℚ → ℚ)
    (s0 u d : ℚ) :
    ∀ (k : ℕ) (vals : List ℚ),
      (rollbackAux disc p american pay s0 u d k vals).length = vals.length - k := by
  intro k
  induction k with
  | zero => intro vals; rfl
  | succ k ih =>
      intro vals
      have hstep :
          (if american then
              exerciseAdjust pay s0 u d k 0 (stepBack disc p vals)
            else stepBack disc p vals).length = vals.length - 1 := by
        cases american with
        | false => simpa using length_stepBack disc p vals
        | true => simpa [length_exerciseAdjust] using length_stepBack disc p vals
      simp only [rollbackAux, ih, hstep]
      omega

theorem length_terminalValues (pay : ℚ → ℚ) (s0 u d : ℚ) (N : ℕ) :
    (terminalValues pay s0 u d N).length = N + 3 := by
  simp [terminalValues, nodeCount]

/-- Rollback from step `N` always leaves exactly 3 node values at step 0:
the grid carries `N + 3` nodes at the final step and each backward step
removes one. -/
theorem length_timeZeroValues (lp : LatticeParams) (american : Bool)
    (pay : ℚ → ℚ) (s0 : ℚ) (N : ℕ) :
    (timeZeroValues lp american pay s0 N).length = 3 := by
  rw [timeZeroValues, length_rollbackAux, length_terminalValues]
  omega

/-- The lattice is centered at the valuation point: when `u * d ≠ 0` the
underlying price of the time-0 mid node is exactly the spot price. -/
theorem underlying_mid (s0 u d : ℚ) (hud : u * d ≠ 0) :
    underlying s0 u d 0 1 = s0 := by
  show s0 * u ^ 1 * d ^ 1 / (u * d) = s0
  rw [pow_one, pow_one, mul_assoc, mul_div_assoc, div_self hud, mul_one]

/-- The success branch of `calculate`: with a positive spot and a
plain-vanilla payoff, the call stores exactly the four formulas of the
source (the three-node check passing by `length_timeZeroValues`). -/
theorem calculate_plain_pos (strat : TreeStrategy)
    (eng : BinomialVanillaEngine_2) (args : Arguments) (otype : OptionType)
    (strike : ℚ) (hs0 : 0 < eng.process.s0)
    (hp : args.payoff = .plainVanilla otype strike) :
    calculate strat eng args =
      ({ value? := some (p0Of strat eng args otype strike)
         delta? := some ((p0uOf strat eng args otype strike
             - p0dOf strat eng args otype strike)
           / (s0uOf strat eng args strike - s0dOf strat eng args strike))
         gamma? := some (((p0uOf strat eng args otype strike
               - p0Of strat eng args otype strike)
             / (s0uOf strat eng args strike - eng.process.s0)
             - (p0dOf strat eng args otype strike
                 - p0Of strat eng args otype strike)
               / (s0dOf strat eng args strike - eng.process.s0))
           / ((s0uOf strat eng args strike - s0dOf strat eng args strike) / 2))
         theta? := some (blackScholesTheta eng.process
           (p0Of strat eng args otype strike)
           ((p0uOf strat eng args otype strike
               - p0dOf strat eng args otype strike)
             / (s0uOf strat eng args strike - s0dOf strat eng args strike))
           (((p0uOf strat eng args otype strike
               - p0Of strat eng args otype strike)
             / (s0uOf strat eng args strike - eng.process.s0)
             - (p0dOf strat eng args otype strike
                 - p0Of strat eng args otype strike)
               / (s0dOf strat eng args strike - eng.process.s0))
           / ((s0uOf strat eng args strike - s0dOf strat eng args strike) / 2))) },
       none) := by
  have h3 : (timeZeroVector strat eng args otype strike).length = 3 :=
    length_timeZeroValues _ _ _ _ _
  obtain ⟨pay, ex⟩ := args
  simp only at hp
  subst hp
  simp only [calculate]
  rw [if_pos hs0, if_pos h3]
  rfl

/-- C1: for every step count accepted by the engine constructor (so N ≥ 2),
a pricing call with a positive spot and a plain-vanilla payoff rolls back to
a time-0 node-value vector of exactly 3 entries — the grid being built with
extra early steps precisely so that 3 nodes, not 1, remain at time 0 — hence
the three-node internal-consistency check never fires and the call succeeds;
the witness instantiates the boundary case N = 2. -/
theorem rollback_leaves_three_nodes (strat : TreeStrategy)
    (process : ProcessData) (N : ℕ) (eng : BinomialVanillaEngine_2)
    (args : Arguments) (otype : OptionType) (strike : ℚ)
    (hmk : mkBinomialVanillaEngine_2 process N = .ok eng)
    (hs0 : 0 < process.s0) (hp : args.payoff = .plainVanilla otype strike) :
    (timeZeroVector strat eng args otype strike).length = 3
      ∧ (calculate strat eng args).2 = none := by
  have heng : eng = { process := process, timeSteps := N } := by
    simp only [mkBinomialVanillaEngine_2] at hmk
    by_cases h2 : 2 ≤ N
    · rw [if_pos h2] at hmk
      exact (Except.ok.inj hmk).symm
    · rw [if_neg h2] at hmk
      cases hmk
  subst heng
  refine ⟨length_timeZeroValues _ _ _ _ _, ?_⟩
  rw [calculate_plain_pos strat _ args otype strike hs0 hp]

/-- Witness for C1 at the boundary step count N = 2, on the spec's reference
scenario: the engine is accepted, the call succeeds, and 3 nodes survive. -/
theorem rollback_leaves_three_nodes_witness :
    mkBinomialVanillaEngine_2 sampleProcess 2 = .ok sampleEngine
      ∧ 0 < sampleProcess.s0
      ∧ sampleArguments.payoff = .plainVanilla .call 100
      ∧ ((timeZeroVector sampleStrategy sampleEngine sampleArguments
            .call 100).length = 3
          ∧ (calculate sampleStrategy sampleEngine sampleArguments).2 = none) :=
  ⟨rfl, by decide, rfl,
    rollback_leaves_three_nodes sampleStrategy sampleProcess 2 sampleEngine
      sampleArguments .call 100 rfl (by decide) rfl⟩

/-- C2: a successful call reports
`gamma = (delta_up - delta_down) / ((s0u - s0d) / 2)` with
`delta_up = (p0u - p0) / (s0u - s0)` and `delta_down = (p0d - p0) / (s0d - s0)`,
where `p0d, p0, p0u` are the three surviving time-0 values (down, mid, up),
`s0d, s0u` the underlying prices of the outer time-0 nodes, and `s0` the
underlying price of the time-0 mid node (which, for any tree parameterization
with nonzero factors, is exactly the spot price the source uses). -/
theorem gamma_second_difference (strat : TreeStrategy)
    (eng : BinomialVanillaEngine_2) (args : Arguments) (otype : OptionType)
    (strike : ℚ) (hs0 : 0 < eng.process.s0)
    (hp : args.payoff = .plainVanilla otype strike)
    (hud : (latticeParamsOf strat eng args strike).u
        * (latticeParamsOf strat eng args strike).d ≠ 0) :
    (calculate strat eng args).2 = none
      ∧ (calculate strat eng args).1.gamma? =
          some (((p0uOf strat eng args otype strike
                - p0Of strat eng args otype strike)
              / (s0uOf strat eng args strike - s0midOf strat eng args strike)
              - (p0dOf strat eng args otype strike
                  - p0Of strat eng args otype strike)
                / (s0dOf strat eng args strike - s0midOf strat eng args strike))
            / ((s0uOf strat eng args strike - s0dOf strat eng args strike) / 2)) := by
  have hmid : s0midOf strat eng args strike = eng.process.s0 :=
    underlying_mid eng.process.s0 (latticeParamsOf strat eng args strike).u
      (latticeParamsOf strat eng args strike).d hud
  rw [calculate_plain_pos strat eng args otype strike hs0 hp]
  exact ⟨rfl, by rw [hmid]⟩

/-- Witness for C2 on the reference scenario (up 2, down 1/2). -/
theorem gamma_second_difference_witness :
    0 < sampleEngine.process.s0
      ∧ sampleArguments.payoff = .plainVanilla .call 100
      ∧ (latticeParamsOf sampleStrategy sampleEngine sampleArguments 100).u
          * (latticeParamsOf sampleStrategy sampleEngine sampleArguments 100).d ≠ 0
      ∧ ((calculate sampleStrategy sampleEngine sampleArguments).2 = none
          ∧ (calculate sampleStrategy sampleEngine sampleArguments).1.gamma? =
              some (((p0uOf sampleStrategy sampleEngine sampleArguments .call 100
                    - p0Of sampleStrategy sampleEngine sampleArguments .call 100)
                  / (s0uOf sampleStrategy sampleEngine sampleArguments 100
                      - s0midOf sampleStrategy sampleEngine sampleArguments 100)
                  - (p0dOf sampleStrategy sampleEngine sampleArguments .call 100
                      - p0Of sampleStrategy sampleEngine sampleArguments .call 100)
                    / (s0dOf sampleStrategy sampleEngine sampleArguments 100
                        - s0midOf sampleStrategy sampleEngine sampleArguments 100))
                / ((s0uOf sampleStrategy sampleEngine sampleArguments 100
                    - s0dOf sampleStrategy sampleEngine sampleArguments 100) / 2))) :=
  ⟨by decide, rfl, by norm_num [latticeParamsOf, sampleStrategy],
    gamma_second_difference sampleStrategy sampleEngine sampleArguments
      .call 100 (by decide) rfl (by norm_num [latticeParamsOf, sampleStrategy])⟩

/-- C3: a successful call reports
`delta = (p0u - p0d) / (s0u - s0d)`, the central difference across the two
outer time-0 nodes: `p0u`, `p0d` are the surviving values at the up
(highest-price) and down (lowest-price) time-0 nodes and `s0u`, `s0d` the
underlying prices of those same two outer nodes. -/
theorem delta_central_difference (strat : TreeStrategy)
    (eng : BinomialVanillaEngine_2) (args : Arguments) (otype : OptionType)
    (strike : ℚ) (hs0 : 0 < eng.process.s0)
    (hp : args.payoff = .plainVanilla otype strike) :
    (calculate strat eng args).2 = none
      ∧ (calculate strat eng args).1.delta? =
          some ((p0uOf strat eng args otype strike
              - p0dOf strat eng args otype strike)
            / (s0uOf strat eng args strike - s0dOf strat eng args strike)) := by
  rw [calculate_plain_pos strat eng args otype strike hs0 hp]
  exact ⟨rfl, rfl⟩

/-- Witness for C3 on the reference scenario. -/
theorem delta_central_difference_witness :
    0 < sampleEngine.process.s0
      ∧ sampleArguments.payoff = .plainVanilla .call 100
      ∧ ((calculate sampleStrategy sampleEngine sampleArguments).2 = none
          ∧ (calculate sampleStrategy sampleEngine sampleArguments).1.delta? =
              some ((p0uOf sampleStrategy sampleEngine sampleArguments .call 100
                  - p0dOf sampleStrategy sampleEngine sampleArguments .call 100)
                / (s0uOf sampleStrategy sampleEngine sampleArguments 100
                    - s0dOf sampleStrategy sampleEngine sampleArguments 100))) :=
  ⟨by decide, rfl,
    delta_central_difference sampleStrategy sampleEngine sampleArguments
      .call 100 (by decide) rfl⟩

/-- C4: a successful call reports as value `p0`, the middle entry (index 1)
of the 3-entry time-0 node-value vector. -/
theorem value_is_mid_node (strat : TreeStrategy)
    (eng : BinomialVanillaEngine_2) (args : Arguments) (otype : OptionType)
    (strike : ℚ) (hs0 : 0 < eng.process.s0)
    (hp : args.payoff = .plainVanilla otype strike) :
    (calculate strat eng args).2 = none
      ∧ (timeZeroVector strat eng args otype strike).length = 3
      ∧ (calculate strat eng args).1.value? =
          some ((timeZeroVector strat eng args otype strike).getD 1 0) := by
  rw [calculate_plain_pos strat eng args otype strike hs0 hp]
  exact ⟨rfl, length_timeZeroValues _ _ _ _ _, rfl⟩

/-- Witness for C4 on the reference scenario. -/
theorem value_is_mid_node_witness :
    0 < sampleEngine.process.s0
      ∧ sampleArguments.payoff = .plainVanilla .call 100
      ∧ ((calculate sampleStrategy sampleEngine sampleArguments).2 = none
          ∧ (timeZeroVector sampleStrategy sampleEngine sampleArguments
              .call 100).length = 3
          ∧ (calculate sampleStrategy sampleEngine sampleArguments).1.value? =
              some ((timeZeroVector sampleStrategy sampleEngine sampleArguments
                .call 100).getD 1 0)) :=
  ⟨by decide, rfl,
    value_is_mid_node sampleStrategy sampleEngine sampleArguments
      .call 100 (by decide) rfl⟩

/-- C5: a successful call computes theta analytically from the
already-stored value, delta and gamma through the Black-Scholes PDE
time-decay identity
`theta = r*V - (r - q)*s*delta - v^2*s^2*gamma/2`
with spot, rate, dividend yield and volatility sampled from the process at
the valuation point — no further rollback or tree evaluation (`calculate`
performs a single `timeZeroValues` rollback, shared by all four results). -/
theorem theta_pde_identity (strat : TreeStrategy)
    (eng : BinomialVanillaEngine_2) (args : Arguments) (otype : OptionType)
    (strike : ℚ) (hs0 : 0 < eng.process.s0)
    (hp : args.payoff = .plainVanilla otype strike) :
    ∃ V D G : ℚ,
      (calculate strat eng args).1.value? = some V
        ∧ (calculate strat eng args).1.delta? = some D
        ∧ (calculate strat eng args).1.gamma? = some G
        ∧ (calculate strat eng args).1.theta? =
            some (eng.process.riskFreeZero 0 * V
              - (eng.process.riskFreeZero 0 - eng.process.dividendZero 0)
                  * eng.process.s0 * D
              - eng.process.blackVol 0 eng.process.s0
                  * eng.process.blackVol 0 eng.process.s0
                  * eng.process.s0 * eng.process.s0 * G / 2) := by
  rw [calculate_plain_pos strat eng args otype strike hs0 hp]
  exact ⟨_, _, _, rfl, rfl, rfl, rfl⟩

/-- Witness for C5 on the reference scenario. -/
theorem theta_pde_identity_witness :
    0 < sampleEngine.process.s0
      ∧ sampleArguments.payoff = .plainVanilla .call 100
      ∧ ∃ V D G : ℚ,
          (calculate sampleStrategy sampleEngine sampleArguments).1.value? = some V
            ∧ (calculate sampleStrategy sampleEngine sampleArguments).1.delta? = some D
            ∧ (calculate sampleStrategy sampleEngine sampleArguments).1.gamma? = some G
            ∧ (calculate sampleStrategy sampleEngine sampleArguments).1.theta? =
                some (sampleEngine.process.riskFreeZero 0 * V
                  - (sampleEngine.process.riskFreeZero 0
                      - sampleEngine.process.dividendZero 0)
                      * sampleEngine.process.s0 * D
                  - sampleEngine.process.blackVol 0 sampleEngine.process.s0
                      * sampleEngine.process.blackVol 0 sampleEngine.process.s0
                      * sampleEngine.process.s0 * sampleEngine.process.s0 * G / 2) :=
  ⟨by decide, rfl,
    theta_pde_identity sampleStrategy sampleEngine sampleArguments
      .call 100 (by decide) rfl⟩

/-- C6: the engine constructor rejects every step count below 2 with the
insufficient-resolution error — before any lattice construction, which only
ever happens inside `calculate` — and accepts every step count of at
least 2. -/
theorem constructor_requires_two_steps (process : ProcessData) (N : ℕ) :
    (N < 2 →
        mkBinomialVanillaEngine_2 process N = .error .insufficientTimeSteps)
      ∧ (2 ≤ N →
          mkBinomialVanillaEngine_2 process N =
            .ok { process := process, timeSteps := N }) := by
  constructor
  · intro h
    simp only [mkBinomialVanillaEngine_2]
    rw [if_neg (by omega)]
  · intro h
    simp only [mkBinomialVanillaEngine_2]
    rw [if_pos h]

/-- Witness for C6 at N = 1 (rejected) and N = 2 (accepted). -/
theorem constructor_requires_two_steps_witness :
    (mkBinomialVanillaEngine_2 sampleProcess 1 =
        .error .insufficientTimeSteps)
      ∧ (mkBinomialVanillaEngine_2 sampleProcess 2 =
          .ok { process := sampleProcess, timeSteps := 2 }) :=
  ⟨(constructor_requires_two_steps sampleProcess 1).1 (by decide),
   (constructor_requires_two_steps sampleProcess 2).2 (by decide)⟩

/-- C7: a call whose sampled spot price is not strictly positive (including
exactly zero) fails immediately with the negative-or-null-underlying
precondition error, before any lattice is involved, and stores no result. -/
theorem nonpositive_spot_rejected (strat : TreeStrategy)
    (eng : BinomialVanillaEngine_2) (args : Arguments)
    (hs0 : eng.process.s0 ≤ 0) :
    calculate strat eng args =
      (Results.empty, some .negativeOrNullUnderlying) := by
  simp only [calculate]
  rw [if_neg (not_lt.mpr hs0)]

/-- Witness for C7 at spot exactly zero. -/
theorem nonpositive_spot_rejected_witness :
    zeroSpotEngine.process.s0 ≤ 0
      ∧ calculate sampleStrategy zeroSpotEngine sampleArguments =
          (Results.empty, some .negativeOrNullUnderlying) :=
  ⟨by decide,
    nonpositive_spot_rejected sampleStrategy zeroSpotEngine sampleArguments
      (by decide)⟩

/-- C8: with a payoff that is not of the single-strike plain-vanilla kind
the call fails and stores no result — so no tree is built and no rollback is
performed for that payoff — and whenever the call reaches the payoff check
(the spot precondition holds) the error is precisely the non-plain-payoff
one. -/
theorem non_plain_payoff_rejected (strat : TreeStrategy)
    (eng : BinomialVanillaEngine_2) (args : Arguments) (f : ℚ → ℚ)
    (hp : args.payoff = .nonPlain f) :
    (calculate strat eng args).1 = Results.empty
      ∧ (calculate strat eng args).2 ≠ none
      ∧ (0 < eng.process.s0 →
          (calculate strat eng args).2 = some .nonPlainPayoff) := by
  obtain ⟨pay, ex⟩ := args
  simp only at hp
  subst hp
  by_cases hs0 : 0 < eng.process.s0
  · simp only [calculate]
    rw [if_pos hs0]
    exact ⟨rfl, by simp, fun _ => rfl⟩
  · simp only [calculate]
    rw [if_neg hs0]
    exact ⟨rfl, by simp, fun h => absurd h hs0⟩

/-- Witness for C8 with a concrete non-plain payoff. -/
theorem non_plain_payoff_rejected_witness :
    nonPlainArguments.payoff = .nonPlain (fun s => s)
      ∧ ((calculate sampleStrategy sampleEngine nonPlainArguments).1 =
            Results.empty
         ∧ (calculate sampleStrategy sampleEngine nonPlainArguments).2 ≠ none
         ∧ (0 < sampleEngine.process.s0 →
            (calculate sampleStrategy sampleEngine nonPlainArguments).2 =
              some .nonPlainPayoff)) :=
  ⟨rfl,
    non_plain_payoff_rejected sampleStrategy sampleEngine nonPlainArguments
      (fun s => s) rfl⟩

/-- C9: a failed pricing call stores no partial result: whenever `calculate`
reports an error, every field of `results_` is still unset, so a caller
never receives a pricing result from a failed call. -/
theorem failed_call_stores_no_result (strat : TreeStrategy)
    (eng : BinomialVanillaEngine_2) (args : Arguments) (e : PricingError)
    (he : (calculate strat eng args).2 = some e) :
    (calculate strat eng args).1 = Results.empty := by
  by_cases hs0 : 0 < eng.process.s0
  · obtain ⟨pay, ex⟩ := args
    cases pay with
    | nonPlain f =>
        simp only [calculate]
        rw [if_pos hs0]
    | plainVanilla otype strike =>
        rw [calculate_plain_pos strat eng
          { payoff := .plainVanilla otype strike, exercise := ex }
          otype strike hs0 rfl] at he
        cases he
  · simp only [calculate]
    rw [if_neg hs0]

/-- Witness for C9 on the zero-spot failing call. -/
theorem failed_call_stores_no_result_witness :
    (calculate sampleStrategy zeroSpotEngine sampleArguments).2 =
        some .negativeOrNullUnderlying
      ∧ (calculate sampleStrategy zeroSpotEngine sampleArguments).1 =
          Results.empty :=
  ⟨by decide,
    failed_call_stores_no_result sampleStrategy zeroSpotEngine
      sampleArguments .negativeOrNullUnderlying (by decide)⟩

/-- C10: the flattened constant volatility is the input surface's Black
volatility sampled at the exercise schedule's last date with strike argument
equal to the current spot price (not the option's strike); and the pricing
call consults the tree builder only at that flattened process, so the tree
is built from exactly this volatility. -/
theorem flattened_vol_sampled_at_spot (strat : TreeStrategy)
    (eng : BinomialVanillaEngine_2) (args : Arguments) :
    (flatProcess eng.process args.exercise).v =
        eng.process.blackVol args.exercise.lastDate eng.process.s0
      ∧ calculate strat eng args =
          calculate (fun _ m n k =>
            strat (flatProcess eng.process args.exercise) m n k) eng args :=
  ⟨rfl, rfl⟩

end BinomialEngine2
